import Mathlib

/-!
Shallow embedding of `src/azure-openai-chat-completions-formatter.ts`
(class `AzureOpenAIChatCompletionsFormatter`), the memory-regrouping and
message-synthesis algorithm that converts a provider-agnostic query into
the parameter shape of the OpenAI chat-completions API.

Modelling conventions:
- A TypeScript value that may be `undefined`/`null` is an `Option`; a field
  that may be absent from an emitted object literal is an `Option` field
  (`none` = field omitted).
- Functions that can `throw` return `Except String` carrying the thrown
  message.
- External collaborators (`zodToJsonSchema`, `zodResponseFormat`, the
  instructions formatter and the role mapper) are function parameters: the
  source treats them as opaque, and so do we.
- Type parameters: `Role` is the source-domain role label type
  (`Role extends string` in the source; theorems instantiate it with
  `String`), `σ` the output schema type, `π` the tool parameter-schema
  type, `js` the wire JSON-schema type produced by `zodToJsonSchema`,
  `ρ` the response-format type produced by `zodResponseFormat`.
-/

/-- Utterance memory item payload: `{type: 'utterance', role, name?, contents}`. -/
structure Utt (Role : Type) where
  role : Role
  name : Option String
  contents : String
deriving Repr, DecidableEq

/-- Tool-call memory item payload:
`{type: 'tool-call', toolName, toolCallId, arguments}`. -/
structure ToolCallItem where
  toolName : String
  toolCallId : String
  arguments : String
deriving Repr, DecidableEq

/-- Tool-call-result memory item payload:
`{type: 'tool-call-result', toolCallId, result}`; `result = none` models the
`null` payload. -/
structure ToolCallResultItem where
  toolCallId : String
  result : Option String
deriving Repr, DecidableEq

/-- The tagged union of Kanuni memory items consumed by `formatMemoryItems`
(the `switch (memoryItem.type)` scrutinee). -/
inductive MemoryItem (Role : Type) where
  | utterance (u : Utt Role)
  | toolCall (c : ToolCallItem)
  | toolCallResult (r : ToolCallResultItem)
deriving Repr, DecidableEq

/-- The grouped-turn union built by the regrouping loop of
`formatMemoryItems` (the `lastGroup` local variable's non-null type):
a user turn, an assistant turn with optional utterance plus accumulated
tool calls, or a batch of consecutive tool-call results. -/
inductive GroupedTurn (Role : Type) where
  | user (utteranceItem : Utt Role)
  | assistant (utteranceItem : Option (Utt Role)) (toolCalls : List ToolCallItem)
  | toolCallResultGroup (toolCallResults : List ToolCallResultItem)
deriving Repr, DecidableEq

/-- Output declaration of a query: `output-text`, `output-json` (with schema
and schema name), or an unrecognized tag reaching the defensive `default`
branches. -/
inductive Output (σ : Type) where
  | outputText
  | outputJson (schema : σ) (schemaName : Option String)
  | otherOutput (tag : String)
deriving Repr, DecidableEq

/-- One entry of the query's tool registry: `{name, description, parameters}`. -/
structure ToolItem (π : Type) where
  name : String
  description : String
  parameters : π
deriving Repr, DecidableEq

/-- The part of a Kanuni query that `format` consumes: optional memory
contents (`query.memory?.contents`), optional tool registry (`query.tools`,
modelled as a list in `Object.values` order), and the output declaration
(`query.output`). -/
structure Query (Role σ π : Type) where
  memory : Option (List (MemoryItem Role))
  tools : Option (List (ToolItem π))
  output : Output σ

/-- A role mapper: `(sourceRole, name?) => string`, which may throw
(`Except.error`) or return an arbitrary string that the regrouper then
checks at the point of use. -/
def RoleMapper (Role : Type) : Type := Role → Option String → Except String String

/-- The formatter instance's configuration fields, fixed at construction:
`instructionsRole`, `instructionsFormatter`, `roleMapper`. -/
structure FormatterConfig (Role σ π : Type) where
  instructionsRole : String
  instructionsFormatter : Query Role σ π → String
  roleMapper : RoleMapper Role

/-- Default value of the `instructionsRole` configuration field
(`DEFAULT_INSTRUCTIONS_ROLE` in the source). -/
def DEFAULT_INSTRUCTIONS_ROLE : String := "system"

/-- The default role mapper (`identityRoleMapper` in the source):
`SUPPORTED_ROLES.find(role => role === sourceRole)` over
`['user', 'assistant']`, throwing `Unknown role: <role>` when not found.
The source's method takes only `sourceRole`; the extra `name` argument the
caller passes is ignored. -/
def identityRoleMapper : RoleMapper String := fun sourceRole _name =>
  if sourceRole = "user" then .ok "user"
  else if sourceRole = "assistant" then .ok "assistant"
  else .error ( "Unknown role: " ++ sourceRole)

/-- The message thrown by the regrouper when the role mapper returns
something other than `user`/`assistant` for an utterance. -/
def onlySupportedMsg : String :=
  "Only user and assistant utterances are supported by AzureOpenAIChatCompletionsJsonFormatter"

/-- The message thrown when memory begins with a tool-call result. -/
def orphanResultMsg (toolCallId : String) : String :=
  "Memory starts with a tool call result without its corresponding call. Tool call id: "
    ++ toolCallId

/-- Wire representation of one tool call inside an assistant message
(`ChatCompletionMessageToolCall`): `{id, type: 'function',
function: {name, arguments}}`. -/
structure ToolCallParam where
  id : String
  type : String
  functionName : String
  functionArguments : String
deriving Repr, DecidableEq

/-- Embedding of the private `formatToolCall` method: a direct field copy
with the fixed `'function'` discriminator. -/
def formatToolCall (toolCall : ToolCallItem) : ToolCallParam :=
  { id := toolCall.toolCallId
    type := "function"
    functionName := toolCall.toolName
    functionArguments := toolCall.arguments }

/-- A chat-completions message. Optional fields model presence/absence of
the corresponding property in the emitted object literal (`none` = the
source spread `...( ... ? { field } : {})` omitted it). -/
structure Message where
  role : String
  content : Option String
  name : Option String
  tool_calls : Option (List ToolCallParam)
  tool_call_id : Option String
deriving Repr, DecidableEq

/-- State of the regrouping loop: the `regroupedMemoryItems` output list and
the nullable `lastGroup` slot. -/
abbrev RegroupState (Role : Type) := List (GroupedTurn Role) × Option (GroupedTurn Role)

/-- The group-opening switch on the mapped role that the source inlines at
both utterance sites (lines 297-313 and 316-332, which are textually
identical): call the role mapper, open a user or assistant group, or throw
the only-user-and-assistant error on any other returned value. -/
def openUtteranceGroup (rm : RoleMapper Role) (u : Utt Role) :
    Except String (GroupedTurn Role) :=
  match rm u.role u.name with
  | .error e => .error e
  | .ok mapped =>
    if mapped = "user" then .ok (.user u)
    else if mapped = "assistant" then .ok (.assistant (some u) [])
    else .error onlySupportedMsg

/-- One iteration of the regrouping loop of `formatMemoryItems`: the
`switch (memoryItem.type)` body, acting on `(regroupedMemoryItems,
lastGroup)`. -/
def regroupStep (rm : RoleMapper Role) (st : RegroupState Role)
    (item : MemoryItem Role) : Except String (RegroupState Role) :=
  match item with
  | .utterance u =>
    match st.2 with
    | some (.assistant none toolCalls) =>
      -- tool calls then an assistant utterance: attach the utterance to the
      -- open group in place (the role mapper is not consulted here)
      .ok (st.1, some (.assistant (some u) toolCalls))
    | some g =>
      match openUtteranceGroup rm u with
      | .error e => .error e
      | .ok ng => .ok (st.1 ++ [g], some ng)
    | none =>
      match openUtteranceGroup rm u with
      | .error e => .error e
      | .ok ng => .ok (st.1, some ng)
  | .toolCall c =>
    match st.2 with
    | none => .ok (st.1, some (.assistant none [c]))
    | some (.assistant utt toolCalls) =>
      .ok (st.1, some (.assistant utt (toolCalls ++ [c])))
    | some g => .ok (st.1 ++ [g], some (.assistant none [c]))
  | .toolCallResult r =>
    match st.2 with
    | none => .error (orphanResultMsg r.toolCallId)
    | some (.toolCallResultGroup rs) =>
      .ok (st.1, some (.toolCallResultGroup (rs ++ [r])))
    | some g => .ok (st.1 ++ [g], some (.toolCallResultGroup [r]))

/-- The regrouping loop: left fold of `regroupStep` over the memory items,
short-circuiting on a thrown error. -/
def regroupFold (rm : RoleMapper Role) :
    RegroupState Role → List (MemoryItem Role) → Except String (RegroupState Role)
  | st, [] => .ok st
  | st, item :: rest =>
    match regroupStep rm st item with
    | .error e => .error e
    | .ok st' => regroupFold rm st' rest

/-- The end-of-loop flush: `if (lastGroup !== null) regroupedMemoryItems.push(lastGroup)`. -/
def flushState : RegroupState Role → List (GroupedTurn Role)
  | (out, none) => out
  | (out, some g) => out ++ [g]

/-- The complete regrouping pass of `formatMemoryItems`: fold from the
initial `([], null)` state, then flush the open group. -/
def regroup (rm : RoleMapper Role) (items : List (MemoryItem Role)) :
    Except String (List (GroupedTurn Role)) :=
  match regroupFold rm ([], none) items with
  | .error e => .error e
  | .ok st => .ok (flushState st)

/-- Rendering of one grouped turn into wire messages (the `.map` callback of
the message-synthesis stage, before `.flat()`):
a user turn yields one user message whose `name` property is included
exactly when `utteranceItem.name !== undefined`; an assistant turn yields
one assistant message with `content` included when an utterance is present
and `tool_calls` included when the accumulated list is non-empty; a
tool-result turn yields one `tool` message per result, a `null` result
rendering as the literal `Success`. -/
def renderGroup : GroupedTurn Role → List Message
  | .user u =>
    [{ role := "user"
       content := some u.contents
       name := u.name
       tool_calls := none
       tool_call_id := none }]
  | .assistant utt toolCalls =>
    [{ role := "assistant"
       content := utt.map (fun u => u.contents)
       name := none
       tool_calls :=
         if toolCalls.length > 0 then some (toolCalls.map formatToolCall) else none
       tool_call_id := none }]
  | .toolCallResultGroup rs =>
    rs.map fun r =>
      { role := "tool"
        content := some (match r.result with | none => "Success" | some s => s)
        name := none
        tool_calls := none
        tool_call_id := some r.toolCallId }

/-- The leading instructions message `{role: instructionsRole, content:
instructions}` with `instructions = this.instructionsFormatter(query)`. -/
def instructionsMessage (cfg : FormatterConfig Role σ π) (query : Query Role σ π) :
    Message :=
  { role := cfg.instructionsRole
    content := some (cfg.instructionsFormatter query)
    name := none
    tool_calls := none
    tool_call_id := none }

/-- Embedding of the private `formatMemoryItems` method: regroup
`query.memory?.contents || []`, then emit the instructions message followed
by the flattened rendering of the grouped turns. -/
def formatMemoryItems (cfg : FormatterConfig Role σ π) (query : Query Role σ π) :
    Except String (List Message) :=
  match regroup cfg.roleMapper (query.memory.getD []) with
  | .error e => .error e
  | .ok regroupedMemoryItems =>
    .ok (instructionsMessage cfg query :: (regroupedMemoryItems.map renderGroup).flatten)

/-- One wire tool definition (`ChatCompletionTool`): `{type: 'function',
function: {name, description, parameters, strict: true}}`. The
`parameters` value is whatever the external
`zodToJsonSchema(z.strictObject(tool.parameters), {openaiStrictMode: true,
name: tool.name, ...})` call produces; it is abstracted as `z2js` applied to
the tool's parameters and name. -/
structure ChatCompletionToolDef (js : Type) where
  type : String
  functionName : String
  functionDescription : String
  functionParameters : js
  strict : Bool
deriving Repr, DecidableEq

/-- Embedding of the private `formatTools` method: empty list when the tool
registry is `undefined` or has no keys, otherwise one `'function'`-tagged
definition per registered tool. -/
def formatTools (z2js : π → String → js) (query : Query Role σ π) :
    List (ChatCompletionToolDef js) :=
  match query.tools with
  | none => []
  | some toolRegistry =>
    if toolRegistry.length = 0 then []
    else
      toolRegistry.map fun tool =>
        { type := "function"
          functionName := tool.name
          functionDescription := tool.description
          functionParameters := z2js tool.parameters tool.name
          strict := true }

/-- The error value thrown when the source's `formatJsonSchema` evaluates
`(output as { type: string }).type` with `output === undefined`: a JS
`TypeError`, modelled by its runtime message. -/
def typeErrorUndefinedType : String :=
  "TypeError: Cannot read properties of undefined (reading \x27type\x27)"

/-- Embedding of the private `formatJsonSchema` method. The source's error
expression is
`Error(\x60Query output type must be ...\x60 + output !== undefined ? \x60got ...\x60 : 'output is left as default (text)')`;
since `+` binds tighter than `!==`, the condition compares a concatenated
string (never `undefined`) and is always true, so the thrown message is
exactly `got '<tag>'` — the intended prefix and the
`output is left as default (text)` arm are unreachable — and when `output`
is `undefined` the template literal's `output.type` read throws a
`TypeError` instead. -/
def formatJsonSchema (zrf : σ → Option String → ρ) :
    Option (Output σ) → Except String ρ
  | some (.outputJson schema schemaName) => .ok (zrf schema schemaName)
  | some .outputText => .error ( "got \x27output-text\x27")
  | some (.otherOutput tag) => .error ( "got \x27" ++ tag ++ "\x27")
  | none => .error typeErrorUndefinedType

/-- The result object of `format`: `messages` always present,
`response_format` spread in only when defined, `tools` spread in only when
defined (and `formatTools` never returns `undefined`, so it always is). -/
structure FormatResult (js ρ : Type) where
  messages : List Message
  response_format : Option ρ
  tools : Option (List (ChatCompletionToolDef js))
deriving Repr, DecidableEq

/-- Embedding of the public `format` method: format the memory items, then
the tools, then dispatch on `query.output.type` (`output-text` leaves
`response_format` undefined, `output-json` renders the schema, any other
tag throws `Unknown output type: <tag>`), and assemble the result object.
The unused `_params` argument of the source is dropped: the source never
reads it, so every way of passing it yields this same function of `query`. -/
def format (cfg : FormatterConfig Role σ π) (z2js : π → String → js)
    (zrf : σ → Option String → ρ) (query : Query Role σ π) :
    Except String (FormatResult js ρ) :=
  match formatMemoryItems cfg query with
  | .error e => .error e
  | .ok memoryItems =>
    let tools := formatTools z2js query
    match query.output with
    | .outputText => .ok { messages := memoryItems, response_format := none, tools := some tools }
    | .outputJson schema schemaName =>
      match formatJsonSchema zrf (some (.outputJson schema schemaName)) with
      | .error e => .error e
      | .ok rf => .ok { messages := memoryItems, response_format := some rf, tools := some tools }
    | .otherOutput tag => .error ( "Unknown output type: " ++ tag)

/-! ### Concrete sample values used by witnesses and counterexamples -/

/-- A query with the given memory contents, no tools, text output. -/
def qMem (m : List (MemoryItem String)) : Query String Unit Unit :=
  { memory := some m, tools := none, output := Output.outputText }

/-- A formatter configuration with the default role mapper and a constant
instructions formatter. -/
def cfgW : FormatterConfig String Unit Unit :=
  { instructionsRole := "system"
    instructionsFormatter := fun _ => "INSTR"
    roleMapper := identityRoleMapper }

/-- Stand-in for the external `zodToJsonSchema` collaborator. -/
def z2jsU : Unit → String → Unit := fun _ _ => ()

/-- Stand-in for the external `zodResponseFormat` collaborator. -/
def zrfU : Unit → Option String → Unit := fun _ _ => ()

def tcA : ToolCallItem := { toolName := "t1", toolCallId := "c1", arguments := "\x7b\x7d" }

def uAsst : Utt String := { role := "assistant", name := none, contents := "here" }

def uUser : Utt String := { role := "user", name := none, contents := "hi" }

def uUser2 : Utt String := { role := "user", name := none, contents := "again" }

def uUserEmptyName : Utt String := { role := "user", name := some "", contents := "hi" }

def uWeird : Utt String := { role := "weird", name := none, contents := "hmm" }

def rcr1 : ToolCallResultItem := { toolCallId := "c1", result := some "r1" }

def rcrNull : ToolCallResultItem := { toolCallId := "c2", result := none }

/-- A custom role mapper that maps the `weird` role to a value that is
neither `user` nor `assistant`. -/
def bananaMapper : RoleMapper String := fun sourceRole _name =>
  if sourceRole = "weird" then .ok "banana" else identityRoleMapper sourceRole _name

/-- Configuration carrying `bananaMapper`. -/
def cfgBanana : FormatterConfig String Unit Unit :=
  { instructionsRole := "system"
    instructionsFormatter := fun _ => "INSTR"
    roleMapper := bananaMapper }

/-- A configuration whose instructions formatter inspects the memory (the
source hands the whole query to `this.instructionsFormatter`), surfacing the
role label of the second memory item. -/
def cfgSniff : FormatterConfig String Unit Unit :=
  { instructionsRole := "system"
    instructionsFormatter := fun q =>
      match q.memory with
      | some (_ :: MemoryItem.utterance u :: _) => u.role
      | _ => ""
    roleMapper := identityRoleMapper }

def uRoleA : Utt String := { role := "roleA", name := none, contents := "here" }

def uRoleB : Utt String := { role := "roleB", name := none, contents := "here" }

def toolT1 : ToolItem Unit := { name := "t1", description := "d1", parameters := () }

def qTools : Query String Unit Unit :=
  { memory := none, tools := some [toolT1], output := Output.outputText }

/-! ### Auxiliary notions used by the theorems -/

/-- Whether the current group would absorb an incoming utterance: exactly
when it is an assistant turn with no utterance attached yet (the source
test `lastGroup.type === 'assistant' && lastGroup.utteranceItem === undefined`). -/
def absorbing : Option (GroupedTurn Role) → Bool
  | some (.assistant none _) => true
  | _ => false

/-- A grouped turn seeded by an utterance: a user turn, or an assistant turn
whose utterance is present. Such a group never absorbs a later utterance. -/
def utteranceSeeded : GroupedTurn Role → Bool
  | .user _ => true
  | .assistant (some _) _ => true
  | _ => false

/-- Erase the source-domain role stored inside an utterance. The regrouper
and renderer never read this field again after the group is opened, so
outputs depend on states only through this erasure. -/
def eraseU (u : Utt Role) : Utt Unit :=
  { role := (), name := u.name, contents := u.contents }

/-- Erase the stored roles of a grouped turn. -/
def eraseG : GroupedTurn Role → GroupedTurn Unit
  | .user u => .user (eraseU u)
  | .assistant utt tcs => .assistant (utt.map eraseU) tcs
  | .toolCallResultGroup rs => .toolCallResultGroup rs

/-- Erase the stored roles of a regrouping state. -/
def eraseSt (st : RegroupState Role) : RegroupState Unit :=
  (st.1.map eraseG, st.2.map eraseG)

/-- The flattened rendering of a list of grouped turns (the tail of the
message list after the instructions message). -/
def renderAll (gs : List (GroupedTurn Role)) : List Message :=
  (gs.map renderGroup).flatten

/-! ### Helper lemmas about the regrouping loop -/

/-- Folding over a concatenation runs the two parts in sequence,
short-circuiting on an error in the first part. -/
theorem regroupFold_append (rm : RoleMapper Role) (l1 l2 : List (MemoryItem Role))
    (st : RegroupState Role) :
    regroupFold rm st (l1 ++ l2) =
      match regroupFold rm st l1 with
      | .error e => .error e
      | .ok st' => regroupFold rm st' l2 := by
  induction l1 generalizing st with
  | nil => rfl
  | cons i l ih =>
    cases h : regroupStep rm st i with
    | error e => simp [List.cons_append, regroupFold, h]
    | ok st' => simp [List.cons_append, regroupFold, h, ih st']

/-- Folding a single item is exactly one step. -/
theorem regroupFold_singleton (rm : RoleMapper Role) (st : RegroupState Role)
    (i : MemoryItem Role) : regroupFold rm st [i] = regroupStep rm st i := by
  simp only [regroupFold]
  cases regroupStep rm st i <;> rfl

/-- A successful step always leaves an open current group. -/
theorem regroupStep_isSome (rm : RoleMapper Role) (st : RegroupState Role)
    (item : MemoryItem Role) (st' : RegroupState Role)
    (h : regroupStep rm st item = .ok st') : ∃ g, st'.2 = some g := by
  obtain ⟨out, og⟩ := st
  rcases item with u | c | r <;>
    rcases og with _ | (u0 | ⟨_ | u1, tcs0⟩ | rs0) <;>
    simp only [regroupStep] at h <;>
    first
    | (cases hop : openUtteranceGroup rm u with
       | error e => rw [hop] at h; exact Except.noConfusion h
       | ok ng =>
         rw [hop] at h
         simp only [Except.ok.injEq] at h
         subst h
         exact ⟨ng, rfl⟩)
    | (simp only [Except.ok.injEq] at h; subst h; exact ⟨_, rfl⟩)
    | exact Except.noConfusion h

/-- A successful fold over a non-empty list leaves an open current group. -/
theorem regroupFold_isSome (rm : RoleMapper Role) (l : List (MemoryItem Role)) :
    ∀ st st', l ≠ [] → regroupFold rm st l = .ok st' → ∃ g, st'.2 = some g := by
  induction l with
  | nil => intro st st' h; exact absurd rfl h
  | cons i rest ih =>
    intro st st' _ h
    simp only [regroupFold] at h
    cases hs : regroupStep rm st i with
    | error e => rw [hs] at h; exact Except.noConfusion h
    | ok st1 =>
      rw [hs] at h
      rcases rest with _ | ⟨j, rest'⟩
      · simp only [regroupFold, Except.ok.injEq] at h
        subst h
        exact regroupStep_isSome rm st i st1 hs
      · exact ih st1 st' (List.cons_ne_nil j rest') h

/-- Stepping on a tool call always yields an assistant group whose
accumulated tool-call list ends in that call. -/
theorem regroupStep_toolCall_shape (rm : RoleMapper Role) (st : RegroupState Role)
    (c : ToolCallItem) (st' : RegroupState Role)
    (h : regroupStep rm st (.toolCall c) = .ok st') :
    ∃ out utt tcs, st' = (out, some (.assistant utt (tcs ++ [c]))) := by
  obtain ⟨out0, og⟩ := st
  rcases og with _ | (u0 | ⟨utt0, tcs0⟩ | rs0) <;>
    simp only [regroupStep, Except.ok.injEq] at h <;>
    subst h <;>
    first
    | exact ⟨_, _, tcs0, rfl⟩
    | exact ⟨_, _, [], rfl⟩

/-- Consecutive tool-call results accumulate into the open tool-result
group, never failing and never closing it. -/
theorem regroupFold_results_batch (rm : RoleMapper Role) (rs : List ToolCallResultItem) :
    ∀ (out : List (GroupedTurn Role)) (acc : List ToolCallResultItem),
      regroupFold rm (out, some (.toolCallResultGroup acc)) (rs.map MemoryItem.toolCallResult) =
        .ok (out, some (.toolCallResultGroup (acc ++ rs))) := by
  induction rs with
  | nil => intro out acc; simp [regroupFold]
  | cons r rest ih =>
    intro out acc
    simp only [List.map_cons, regroupFold, regroupStep]
    rw [ih out (acc ++ [r])]
    simp

/-- Unfolding `formatMemoryItems` when the regrouping pass succeeds. -/
theorem formatMemoryItems_eq_ok (cfg : FormatterConfig Role σ π) (query : Query Role σ π)
    (gs : List (GroupedTurn Role))
    (h : regroup cfg.roleMapper (query.memory.getD []) = .ok gs) :
    formatMemoryItems cfg query =
      .ok (instructionsMessage cfg query :: (gs.map renderGroup).flatten) := by
  unfold formatMemoryItems
  rw [h]

/-- Unfolding `formatMemoryItems` when the regrouping pass throws. -/
theorem formatMemoryItems_eq_error (cfg : FormatterConfig Role σ π) (query : Query Role σ π)
    (e : String) (h : regroup cfg.roleMapper (query.memory.getD []) = .error e) :
    formatMemoryItems cfg query = .error e := by
  unfold formatMemoryItems
  rw [h]

/-- Unfolding `regroup` when the fold succeeds. -/
theorem regroup_eq_of_fold (rm : RoleMapper Role) (items : List (MemoryItem Role))
    (st : RegroupState Role) (h : regroupFold rm ([], none) items = .ok st) :
    regroup rm items = .ok (flushState st) := by
  unfold regroup
  rw [h]

/-- Unfolding `regroup` when the fold throws. -/
theorem regroup_eq_error_of_fold (rm : RoleMapper Role) (items : List (MemoryItem Role))
    (e : String) (h : regroupFold rm ([], none) items = .error e) :
    regroup rm items = .error e := by
  unfold regroup
  rw [h]

/-- Composition form of `regroupFold_append` with a successful prefix. -/
theorem regroupFold_append_ok (rm : RoleMapper Role) (l1 l2 : List (MemoryItem Role))
    (st st1 : RegroupState Role) (h : regroupFold rm st l1 = .ok st1) :
    regroupFold rm st (l1 ++ l2) = regroupFold rm st1 l2 := by
  rw [regroupFold_append, h]

/-- Composition form of `regroupFold_append` with a failing prefix. -/
theorem regroupFold_append_error (rm : RoleMapper Role) (l1 l2 : List (MemoryItem Role))
    (st : RegroupState Role) (e : String) (h : regroupFold rm st l1 = .error e) :
    regroupFold rm st (l1 ++ l2) = .error e := by
  rw [regroupFold_append, h]

/-- C1: in a memory sequence where a ToolCall is immediately followed by an
Utterance while the current group is an assistant turn holding only tool
calls (no utterance yet, the mapped role of the utterance being
`assistant`), `formatMemoryItems` renders exactly one assistant message
carrying both the utterance text as `content` and the accumulated tool
calls as `tool_calls`; the two events never yield two separate messages. -/
theorem c1_toolcall_utterance_merge {Role σ π : Type}
    (cfg : FormatterConfig Role σ π) (query : Query Role σ π)
    (p : List (MemoryItem Role)) (c : ToolCallItem) (u : Utt Role)
    (out : List (GroupedTurn Role)) (tcs : List ToolCallItem)
    (hmem : query.memory = some (p ++ [MemoryItem.toolCall c, MemoryItem.utterance u]))
    (hstate : regroupFold cfg.roleMapper ([], none) (p ++ [MemoryItem.toolCall c]) =
      .ok (out, some (.assistant none tcs)))
    (hrole : cfg.roleMapper u.role u.name = .ok "assistant") :
    formatMemoryItems cfg query =
      .ok (instructionsMessage cfg query ::
        ((out.map renderGroup).flatten ++
          [{ role := "assistant", content := some u.contents, name := none,
             tool_calls := some (tcs.map formatToolCall), tool_call_id := none }])) := by
  have htcs : tcs ≠ [] := by
    have happ := regroupFold_append cfg.roleMapper p [MemoryItem.toolCall c] ([], none)
    rw [hstate] at happ
    cases hp : regroupFold cfg.roleMapper ([], none) p with
    | error e => rw [hp] at happ; exact Except.noConfusion happ
    | ok stp =>
      rw [hp] at happ
      have happ2 : (Except.ok (out, some (GroupedTurn.assistant none tcs)) :
          Except String (RegroupState Role)) =
          regroupStep cfg.roleMapper stp (MemoryItem.toolCall c) := by
        rw [← regroupFold_singleton]
        exact happ
      obtain ⟨out2, utt2, tcs2, hshape⟩ :=
        regroupStep_toolCall_shape cfg.roleMapper stp c _ happ2.symm
      simp only [Prod.mk.injEq, Option.some.injEq, GroupedTurn.assistant.injEq] at hshape
      rw [hshape.2.2]
      simp
  have hfull : regroupFold cfg.roleMapper ([], none)
      ((p ++ [MemoryItem.toolCall c]) ++ [MemoryItem.utterance u]) =
      .ok (out, some (.assistant (some u) tcs)) :=
    (regroupFold_append_ok cfg.roleMapper (p ++ [MemoryItem.toolCall c])
      [MemoryItem.utterance u] ([], none) _ hstate).trans rfl
  have hassoc : (p ++ [MemoryItem.toolCall c]) ++ [MemoryItem.utterance u] =
      p ++ [MemoryItem.toolCall c, MemoryItem.utterance u] := by simp
  rw [hassoc] at hfull
  have hreg := regroup_eq_of_fold cfg.roleMapper _ _ hfull
  have hmain := formatMemoryItems_eq_ok cfg query
    (out ++ [GroupedTurn.assistant (some u) tcs])
    (by rw [hmem, Option.getD_some]; exact hreg)
  rw [hmain]
  have hmsg : renderGroup (GroupedTurn.assistant (some u) tcs) =
      [{ role := "assistant", content := some u.contents, name := none,
         tool_calls := some (tcs.map formatToolCall), tool_call_id := none }] := by
    simp only [renderGroup]
    rw [if_pos (List.length_pos.mpr htcs)]
    rfl
  simp [List.map_append, List.flatten_append, hmsg]

/-- Witness for C1: tool call then assistant utterance merge into one
assistant message carrying both content and the tool call. -/
theorem c1_merge_witness :
    formatMemoryItems cfgW (qMem [MemoryItem.toolCall tcA, MemoryItem.utterance uAsst]) =
      .ok (instructionsMessage cfgW (qMem [MemoryItem.toolCall tcA, MemoryItem.utterance uAsst]) ::
        ((([] : List (GroupedTurn String)).map renderGroup).flatten ++
          [{ role := "assistant", content := some uAsst.contents, name := none,
             tool_calls := some ([tcA].map formatToolCall), tool_call_id := none }])) :=
  c1_toolcall_utterance_merge cfgW _ [] tcA uAsst [] [tcA] rfl rfl rfl

/-- C2: a run of N consecutive ToolCallResults (N at least 1), arriving
while the current group exists and is not itself a tool-result batch,
yields exactly N separate `tool`-role messages in input order, each
carrying that result's call identifier as `tool_call_id` and its payload as
`content`, a `null` payload rendering as the literal `Success`. -/
theorem c2_tool_result_fanout {Role σ π : Type}
    (cfg : FormatterConfig Role σ π) (query : Query Role σ π)
    (p : List (MemoryItem Role)) (rs : List ToolCallResultItem)
    (out : List (GroupedTurn Role)) (g : GroupedTurn Role)
    (hmem : query.memory = some (p ++ rs.map MemoryItem.toolCallResult))
    (hne : rs ≠ [])
    (hstate : regroupFold cfg.roleMapper ([], none) p = .ok (out, some g))
    (hg : ∀ rs0, g ≠ .toolCallResultGroup rs0) :
    formatMemoryItems cfg query =
      .ok (instructionsMessage cfg query ::
        ((out.map renderGroup).flatten ++ renderGroup g ++
          rs.map (fun r =>
            { role := "tool"
              content := some (match r.result with | none => "Success" | some s => s)
              name := none
              tool_calls := none
              tool_call_id := some r.toolCallId }))) := by
  obtain ⟨r, rest, rfl⟩ : ∃ r rest, rs = r :: rest := by
    cases rs with
    | nil => exact absurd rfl hne
    | cons a b => exact ⟨a, b, rfl⟩
  have hstep : regroupStep cfg.roleMapper (out, some g) (MemoryItem.toolCallResult r) =
      .ok (out ++ [g], some (.toolCallResultGroup [r])) := by
    cases g with
    | user u0 => rfl
    | assistant utt tcs => rfl
    | toolCallResultGroup rs0 => exact absurd rfl (hg rs0)
  have hfull : regroupFold cfg.roleMapper ([], none)
      (p ++ (r :: rest).map MemoryItem.toolCallResult) =
      .ok (out ++ [g], some (.toolCallResultGroup (r :: rest))) := by
    rw [regroupFold_append_ok cfg.roleMapper p _ ([], none) _ hstate]
    simp only [List.map_cons, regroupFold]
    rw [hstep]
    show regroupFold cfg.roleMapper (out ++ [g], some (.toolCallResultGroup [r]))
        (rest.map MemoryItem.toolCallResult) = _
    rw [regroupFold_results_batch]
    simp
  have hreg := regroup_eq_of_fold cfg.roleMapper _ _ hfull
  have hmain := formatMemoryItems_eq_ok cfg query _
    (by rw [hmem, Option.getD_some]; exact hreg)
  rw [hmain]
  simp [flushState, List.map_append, List.flatten_append, renderGroup]

/-- Witness for C2: a user utterance followed by two tool-call results (one
with payload, one null) yields two tool messages after the user message. -/
theorem c2_fanout_witness :
    formatMemoryItems cfgW (qMem [MemoryItem.utterance uUser,
        MemoryItem.toolCallResult rcr1, MemoryItem.toolCallResult rcrNull]) =
      .ok (instructionsMessage cfgW (qMem [MemoryItem.utterance uUser,
          MemoryItem.toolCallResult rcr1, MemoryItem.toolCallResult rcrNull]) ::
        ((([] : List (GroupedTurn String)).map renderGroup).flatten ++
          renderGroup (GroupedTurn.user uUser) ++
          [rcr1, rcrNull].map (fun r =>
            { role := "tool"
              content := some (match r.result with | none => "Success" | some s => s)
              name := none
              tool_calls := none
              tool_call_id := some r.toolCallId }))) :=
  c2_tool_result_fanout cfgW _ [MemoryItem.utterance uUser] [rcr1, rcrNull] []
    (GroupedTurn.user uUser) rfl (by simp) rfl
    (fun rs0 h => GroupedTurn.noConfusion h)

/-- C3: memory whose first event is a ToolCallResult makes
`formatMemoryItems` fail with the error naming the orphaned call
identifier, before producing any output; and once at least one prior event
has been processed successfully, a ToolCallResult step never raises any
error (hence never this one). -/
theorem c3_orphan_result {Role σ π : Type} :
    (∀ (cfg : FormatterConfig Role σ π) (query : Query Role σ π)
       (r : ToolCallResultItem) (rest : List (MemoryItem Role)),
      query.memory = some (MemoryItem.toolCallResult r :: rest) →
      formatMemoryItems cfg query = .error (orphanResultMsg r.toolCallId)) ∧
    (∀ (rm : RoleMapper Role) (p : List (MemoryItem Role)) (r : ToolCallResultItem)
       (st' : RegroupState Role),
      p ≠ [] → regroupFold rm ([], none) p = .ok st' →
      ∃ st'', regroupStep rm st' (MemoryItem.toolCallResult r) = .ok st'') := by
  constructor
  · intro cfg query r rest hmem
    have hfold : regroupFold cfg.roleMapper ([], none)
        (MemoryItem.toolCallResult r :: rest) = .error (orphanResultMsg r.toolCallId) := rfl
    exact formatMemoryItems_eq_error cfg query _
      (by rw [hmem, Option.getD_some]
          exact regroup_eq_error_of_fold cfg.roleMapper _ _ hfold)
  · intro rm p r st' hp hfold
    obtain ⟨o, og⟩ := st'
    obtain ⟨g, hg⟩ := regroupFold_isSome rm p ([], none) (o, og) hp hfold
    have hg' : og = some g := hg
    subst hg'
    cases g with
    | user u0 => exact ⟨_, rfl⟩
    | assistant utt tcs => exact ⟨_, rfl⟩
    | toolCallResultGroup rs0 => exact ⟨_, rfl⟩

/-- Witness for C3: memory starting with a result fails with the orphan
error; a result after a processed user utterance steps successfully. -/
theorem c3_orphan_witness :
    formatMemoryItems cfgW (qMem [MemoryItem.toolCallResult rcr1]) =
      .error (orphanResultMsg rcr1.toolCallId) ∧
    ∃ st'', regroupStep identityRoleMapper ([], some (GroupedTurn.user uUser))
      (MemoryItem.toolCallResult rcr1) = .ok st'' :=
  ⟨(@c3_orphan_result String Unit Unit).1 cfgW (qMem [MemoryItem.toolCallResult rcr1])
      rcr1 [] rfl,
   (@c3_orphan_result String Unit Unit).2 identityRoleMapper [MemoryItem.utterance uUser]
      rcr1 ([], some (GroupedTurn.user uUser)) (List.cons_ne_nil _ _) rfl⟩

/-- Rendering distributes over concatenation of grouped turns. -/
theorem renderAll_append (l1 l2 : List (GroupedTurn Role)) :
    renderAll (l1 ++ l2) = renderAll l1 ++ renderAll l2 := by
  simp [renderAll, List.map_append, List.flatten_append]

/-- An utterance-seeded group renders to exactly one message. -/
theorem renderGroup_length_of_seeded (g : GroupedTurn Role)
    (h : utteranceSeeded g = true) : (renderGroup g).length = 1 := by
  cases g with
  | user u => rfl
  | assistant utt tcs =>
    cases utt with
    | none => simp [utteranceSeeded] at h
    | some u => rfl
  | toolCallResultGroup rs => simp [utteranceSeeded] at h

/-- Invariant induction for C4: folding utterances that all map to `user`
or `assistant` from a state whose open group (if any) is utterance-seeded
succeeds, keeps the invariant, and grows the flushed rendering by exactly
one message per utterance. -/
theorem c4_aux (rm : RoleMapper Role) (us : List (Utt Role)) :
    ∀ (out : List (GroupedTurn Role)) (og : Option (GroupedTurn Role)),
      (∀ g ∈ out, (renderGroup g).length = 1) →
      (og = none ∨ ∃ g, og = some g ∧ utteranceSeeded g = true) →
      (∀ u ∈ us, rm u.role u.name = .ok "user" ∨ rm u.role u.name = .ok "assistant") →
      ∃ out' og',
        regroupFold rm (out, og) (us.map MemoryItem.utterance) = .ok (out', og') ∧
        (∀ g ∈ out', (renderGroup g).length = 1) ∧
        (og' = none ∨ ∃ g, og' = some g ∧ utteranceSeeded g = true) ∧
        (renderAll (flushState (out', og'))).length =
          (renderAll (flushState (out, og))).length + us.length := by
  induction us with
  | nil =>
    intro out og hout hog _
    exact ⟨out, og, rfl, hout, hog, by simp⟩
  | cons u us ih =>
    intro out og hout hog hmap
    have hu := hmap u (List.mem_cons_self u us)
    have hopen : ∃ ng, openUtteranceGroup rm u = .ok ng ∧ utteranceSeeded ng = true := by
      rcases hu with hu | hu
      · exact ⟨.user u, by simp [openUtteranceGroup, hu], rfl⟩
      · exact ⟨.assistant (some u) [], by simp [openUtteranceGroup, hu], rfl⟩
    obtain ⟨ng, hng, hngseed⟩ := hopen
    have hnglen : (renderGroup ng).length = 1 := renderGroup_length_of_seeded ng hngseed
    rcases hog with rfl | ⟨g, rfl, hgseed⟩
    · have hstep : regroupStep rm (out, none) (MemoryItem.utterance u) = .ok (out, some ng) := by
        simp [regroupStep, hng]
      obtain ⟨out', og', hfold, hout', hog', hcount⟩ :=
        ih out (some ng) hout (Or.inr ⟨ng, rfl, hngseed⟩)
          (fun v hv => hmap v (List.mem_cons_of_mem u hv))
      refine ⟨out', og', ?_, hout', hog', ?_⟩
      · simp only [List.map_cons, regroupFold]
        rw [hstep]
        exact hfold
      · rw [hcount]
        simp only [flushState, renderAll_append, List.length_append, List.length_cons]
        have : (renderAll [ng]).length = 1 := by
          simp [renderAll, hnglen]
        omega
    · have hglen : (renderGroup g).length = 1 := renderGroup_length_of_seeded g hgseed
      have hstep : regroupStep rm (out, some g) (MemoryItem.utterance u) =
          .ok (out ++ [g], some ng) := by
        cases g with
        | user u0 => simp [regroupStep, hng]
        | assistant utt0 tcs0 =>
          cases utt0 with
          | none => simp [utteranceSeeded] at hgseed
          | some u1 => simp [regroupStep, hng]
        | toolCallResultGroup rs0 => simp [utteranceSeeded] at hgseed
      have hout2 : ∀ g' ∈ out ++ [g], (renderGroup g').length = 1 := by
        intro g' hg'
        rcases List.mem_append.mp hg' with h | h
        · exact hout g' h
        · rw [List.mem_singleton.mp h]
          exact hglen
      obtain ⟨out', og', hfold, hout', hog', hcount⟩ :=
        ih (out ++ [g]) (some ng) hout2 (Or.inr ⟨ng, rfl, hngseed⟩)
          (fun v hv => hmap v (List.mem_cons_of_mem u hv))
      refine ⟨out', og', ?_, hout', hog', ?_⟩
      · simp only [List.map_cons, regroupFold]
        rw [hstep]
        exact hfold
      · rw [hcount]
        simp only [flushState, renderAll_append, List.length_append, List.length_cons]
        have h1 : (renderAll [ng]).length = 1 := by simp [renderAll, hnglen]
        have h2 : (renderAll [g]).length = 1 := by simp [renderAll, hglen]
        omega

/-- C4: for memory consisting solely of utterances, each mapped to `user`
or `assistant` by the configured role mapper, the message list has length
exactly 1 + (number of utterances): one leading instructions message plus
one message per utterance, with no merging. -/
theorem c4_count_invariant {Role σ π : Type}
    (cfg : FormatterConfig Role σ π) (query : Query Role σ π) (us : List (Utt Role))
    (hmem : query.memory = some (us.map MemoryItem.utterance))
    (hmap : ∀ u ∈ us, cfg.roleMapper u.role u.name = .ok "user" ∨
        cfg.roleMapper u.role u.name = .ok "assistant") :
    ∃ msgs, formatMemoryItems cfg query = .ok msgs ∧ msgs.length = 1 + us.length := by
  obtain ⟨out', og', hfold, hout', hog', hcount⟩ :=
    c4_aux cfg.roleMapper us [] none (by intro g hg; cases hg) (Or.inl rfl) hmap
  have hreg := regroup_eq_of_fold cfg.roleMapper _ _ hfold
  have hmain := formatMemoryItems_eq_ok cfg query _
    (by rw [hmem, Option.getD_some]; exact hreg)
  refine ⟨_, hmain, ?_⟩
  have hlen : (renderAll (flushState (out', og'))).length = us.length := by
    rw [hcount]
    simp [renderAll, flushState]
  simp only [List.length_cons]
  have hsame : ((flushState (out', og')).map renderGroup).flatten =
      renderAll (flushState (out', og')) := rfl
  rw [hsame, hlen]
  omega

/-- Witness for C4: two consecutive same-role user utterances yield
1 + 2 = 3 messages (no merging). -/
theorem c4_count_witness :
    ∃ msgs, formatMemoryItems cfgW
        (qMem [MemoryItem.utterance uUser, MemoryItem.utterance uUser2]) = .ok msgs ∧
      msgs.length = 1 + [uUser, uUser2].length :=
  c4_count_invariant cfgW _ [uUser, uUser2] rfl
    (by intro u hu; fin_cases hu <;> exact Or.inl rfl)

/-- A successful `formatMemoryItems` always returns the instructions message
followed by the rendered turns. -/
theorem formatMemoryItems_head (cfg : FormatterConfig Role σ π) (query : Query Role σ π)
    (msgs : List Message) (h : formatMemoryItems cfg query = .ok msgs) :
    ∃ rest, msgs = instructionsMessage cfg query :: rest := by
  unfold formatMemoryItems at h
  cases hr : regroup cfg.roleMapper (query.memory.getD []) with
  | error e => rw [hr] at h; exact Except.noConfusion h
  | ok gs =>
    rw [hr] at h
    simp only [Except.ok.injEq] at h
    exact ⟨_, h.symm⟩

/-- Inversion of a successful `format` run: the messages come from
`formatMemoryItems`, the `tools` field is always present as the result of
`formatTools`, and text-tagged output leaves `response_format` omitted. -/
theorem format_inv {Role σ π js ρ : Type} (cfg : FormatterConfig Role σ π)
    (z2js : π → String → js) (zrf : σ → Option String → ρ)
    (query : Query Role σ π) (res : FormatResult js ρ)
    (h : format cfg z2js zrf query = .ok res) :
    formatMemoryItems cfg query = .ok res.messages ∧
    res.tools = some (formatTools z2js query) ∧
    (query.output = Output.outputText → res.response_format = none) := by
  unfold format at h
  cases hm : formatMemoryItems cfg query with
  | error e => rw [hm] at h; exact Except.noConfusion h
  | ok msgs =>
    rw [hm] at h
    cases ho : query.output with
    | outputText =>
      rw [ho] at h
      simp only [Except.ok.injEq] at h
      subst h
      exact ⟨rfl, rfl, fun _ => rfl⟩
    | outputJson s n =>
      rw [ho] at h
      simp only [formatJsonSchema, Except.ok.injEq] at h
      subst h
      exact ⟨rfl, rfl, fun hx => Output.noConfusion hx⟩
    | otherOutput tag =>
      rw [ho] at h
      exact Except.noConfusion h

/-- `formatTools` on an absent registry. -/
theorem formatTools_of_none (z2js : π → String → js) (query : Query Role σ π)
    (h : query.tools = none) : formatTools z2js query = [] := by
  unfold formatTools
  rw [h]

/-- `formatTools` on an empty registry. -/
theorem formatTools_of_empty (z2js : π → String → js) (query : Query Role σ π)
    (h : query.tools = some []) : formatTools z2js query = [] := by
  unfold formatTools
  rw [h]
  rfl

/-- `formatTools` on a non-empty registry: one definition per tool. -/
theorem formatTools_of_tools (z2js : π → String → js) (query : Query Role σ π)
    (ts : List (ToolItem π)) (h : query.tools = some ts) (hne : ts ≠ []) :
    formatTools z2js query = ts.map (fun tool =>
      { type := "function"
        functionName := tool.name
        functionDescription := tool.description
        functionParameters := z2js tool.parameters tool.name
        strict := true }) := by
  simp only [formatTools, h]
  rw [if_neg (fun hx => hne (List.length_eq_zero.mp hx))]

/-- C5: for every query the first element of the returned message list is
the leading instructions message: the configured instructions role with the
string the configured instructions formatter produces from the query; this
message is present regardless of memory contents. -/
theorem c5_leading_instructions {Role σ π js ρ : Type}
    (cfg : FormatterConfig Role σ π) (z2js : π → String → js)
    (zrf : σ → Option String → ρ) (query : Query Role σ π)
    (res : FormatResult js ρ)
    (h : format cfg z2js zrf query = .ok res) :
    res.messages.head? = some (instructionsMessage cfg query) := by
  obtain ⟨hmm, _, _⟩ := format_inv cfg z2js zrf query res h
  obtain ⟨rest, hrest⟩ := formatMemoryItems_head cfg query res.messages hmm
  rw [hrest]
  rfl

/-- Witness for C5: an empty-memory query still starts with the
instructions message. -/
theorem c5_leading_witness :
    ({ messages := [instructionsMessage cfgW (qMem [])]
       response_format := none
       tools := some [] } : FormatResult Unit Unit).messages.head? =
      some (instructionsMessage cfgW (qMem [])) :=
  c5_leading_instructions cfgW z2jsU zrfU (qMem []) _ rfl

/-- C8: the result's `tools` field is always present — `some []` when the
tool registry is absent or empty, and a populated list with one
`function`-tagged definition per registered tool (carrying name,
description, and the strict parameter schema) otherwise — never omitted,
unlike `response_format`, which is omitted for text-tagged output. -/
theorem c8_tools_present {Role σ π js ρ : Type} (cfg : FormatterConfig Role σ π)
    (z2js : π → String → js) (zrf : σ → Option String → ρ)
    (query : Query Role σ π) (res : FormatResult js ρ)
    (h : format cfg z2js zrf query = .ok res) :
    res.tools = some (formatTools z2js query) ∧
    res.tools ≠ none ∧
    ((query.tools = none ∨ query.tools = some []) → res.tools = some []) ∧
    (∀ ts, query.tools = some ts → ts ≠ [] →
      res.tools = some (ts.map fun tool =>
        { type := "function"
          functionName := tool.name
          functionDescription := tool.description
          functionParameters := z2js tool.parameters tool.name
          strict := true })) ∧
    (query.output = Output.outputText → res.response_format = none) := by
  obtain ⟨_, htools, hrf⟩ := format_inv cfg z2js zrf query res h
  refine ⟨htools, ?_, ?_, ?_, hrf⟩
  · rw [htools]
    exact fun hx => Option.noConfusion hx
  · intro hcase
    rw [htools]
    rcases hcase with hc | hc
    · rw [formatTools_of_none z2js query hc]
    · rw [formatTools_of_empty z2js query hc]
  · intro ts hts hne
    rw [htools, formatTools_of_tools z2js query ts hts hne]

/-- Witness for C8: a query with one registered tool has a present,
populated `tools` field. -/
theorem c8_tools_witness :
    ({ messages := [instructionsMessage cfgW qTools]
       response_format := none
       tools := some (formatTools z2jsU qTools) } : FormatResult Unit Unit).tools =
      some (formatTools z2jsU qTools) :=
  (c8_tools_present cfgW z2jsU zrfU qTools _ rfl).1

/-- C9: evaluation of the schema renderer (`formatJsonSchema`). With a
present non-json output it throws exactly `got 'output-text'` — the tag is
reported, but the intended prefix is lost to the operator-precedence slip —
and with an absent output it throws a TypeError from reading `.type` of
`undefined` instead of reporting that output is left as default (text). -/
theorem c9_schema_renderer_eval :
    formatJsonSchema zrfU (some Output.outputText) = .error ( "got \x27output-text\x27") ∧
    formatJsonSchema zrfU none = .error typeErrorUndefinedType ∧
    typeErrorUndefinedType ≠ "output is left as default (text)" :=
  ⟨rfl, rfl, by decide⟩

/-- C6 counterexample: with a mapper sending role `weird` to `banana`
(neither `user` nor `assistant`), a memory whose `weird` utterance is
absorbed into an open assistant tool-call group formats successfully — the
failure the claim requires for every such utterance does not occur, because
the mapper is never consulted for an absorbed utterance. -/
theorem c6_claim_counterexample :
    bananaMapper uWeird.role uWeird.name = .ok "banana" ∧
    ( "banana" : String) ≠ "user" ∧ ( "banana" : String) ≠ "assistant" ∧
    formatMemoryItems cfgBanana
        (qMem [MemoryItem.toolCall tcA, MemoryItem.utterance uWeird]) =
      .ok [instructionsMessage cfgBanana
          (qMem [MemoryItem.toolCall tcA, MemoryItem.utterance uWeird]),
        { role := "assistant", content := some "hmm", name := none,
          tool_calls := some [formatToolCall tcA], tool_call_id := none }] :=
  ⟨rfl, by decide, by decide, rfl⟩

/-- C6 (amended): whenever the regrouper actually consults the role mapper
for an utterance — the preceding events processed successfully and the
current group does not absorb the utterance — a mapper verdict other than
`user`/`assistant` makes formatting fail with the only-user-and-assistant
error, checked at this point of use. -/
theorem c6_unsupported_role_amended {Role σ π : Type}
    (cfg : FormatterConfig Role σ π) (query : Query Role σ π)
    (p : List (MemoryItem Role)) (u : Utt Role) (s : List (MemoryItem Role))
    (out : List (GroupedTurn Role)) (og : Option (GroupedTurn Role)) (v : String)
    (hmem : query.memory = some (p ++ MemoryItem.utterance u :: s))
    (hfold : regroupFold cfg.roleMapper ([], none) p = .ok (out, og))
    (habs : absorbing og = false)
    (hv : cfg.roleMapper u.role u.name = .ok v)
    (hvu : v ≠ "user") (hva : v ≠ "assistant") :
    formatMemoryItems cfg query = .error onlySupportedMsg := by
  have hopen : openUtteranceGroup cfg.roleMapper u = .error onlySupportedMsg := by
    simp only [openUtteranceGroup, hv]
    rw [if_neg hvu, if_neg hva]
  have hstep : regroupStep cfg.roleMapper (out, og) (MemoryItem.utterance u) =
      .error onlySupportedMsg := by
    cases og with
    | none => simp [regroupStep, hopen]
    | some g =>
      cases g with
      | user u0 => simp [regroupStep, hopen]
      | assistant utt0 tcs0 =>
        cases utt0 with
        | none => simp [absorbing] at habs
        | some u1 => simp [regroupStep, hopen]
      | toolCallResultGroup rs0 => simp [regroupStep, hopen]
  have hfull : regroupFold cfg.roleMapper ([], none)
      (p ++ MemoryItem.utterance u :: s) = .error onlySupportedMsg := by
    rw [regroupFold_append_ok cfg.roleMapper p _ ([], none) _ hfold]
    simp only [regroupFold]
    rw [hstep]
  exact formatMemoryItems_eq_error cfg query _
    (by rw [hmem, Option.getD_some]
        exact regroup_eq_error_of_fold cfg.roleMapper _ _ hfull)

/-- Witness for the amended C6: a non-absorbed `weird` utterance under the
banana mapper fails with the only-user-and-assistant error. -/
theorem c6_unsupported_witness :
    formatMemoryItems cfgBanana (qMem [MemoryItem.utterance uWeird]) =
      .error onlySupportedMsg :=
  c6_unsupported_role_amended cfgBanana _ [] uWeird [] [] none "banana"
    rfl rfl rfl rfl (by decide) (by decide)

/-- C7 counterexample: a user utterance whose display name is the empty
string still gets a `name` field in the rendered message (the source
includes it whenever `name !== undefined`), while the claim requires the
field to be omitted for an empty display name. -/
theorem c7_claim_counterexample :
    formatMemoryItems cfgW (qMem [MemoryItem.utterance uUserEmptyName]) =
      .ok [instructionsMessage cfgW (qMem [MemoryItem.utterance uUserEmptyName]),
        { role := "user", content := some "hi", name := some "",
          tool_calls := none, tool_call_id := none }] ∧
    (some "" : Option String) ≠ none :=
  ⟨rfl, by decide⟩

/-- C7 (amended): a user grouped turn renders as role `user` with the
utterance text as content and a `name` field equal to the display name
exactly when the display name is present — even when it is the empty
string — and omitted only when the display name is absent. -/
theorem c7_user_turn_name_amended {Role σ π : Type}
    (cfg : FormatterConfig Role σ π) (query : Query Role σ π) (u : Utt Role)
    (hmem : query.memory = some [MemoryItem.utterance u])
    (hrole : cfg.roleMapper u.role u.name = .ok "user") :
    formatMemoryItems cfg query =
      .ok [instructionsMessage cfg query,
        { role := "user", content := some u.contents, name := u.name,
          tool_calls := none, tool_call_id := none }] := by
  have hopen : openUtteranceGroup cfg.roleMapper u = .ok (.user u) := by
    simp [openUtteranceGroup, hrole]
  have hfold : regroupFold cfg.roleMapper ([], none) [MemoryItem.utterance u] =
      .ok ([], some (.user u)) := by
    rw [regroupFold_singleton]
    simp [regroupStep, hopen]
  have hreg := regroup_eq_of_fold cfg.roleMapper _ _ hfold
  have hmain := formatMemoryItems_eq_ok cfg query _
    (by rw [hmem, Option.getD_some]; exact hreg)
  rw [hmain]
  rfl

/-- Witness for the amended C7: a user utterance with no display name
renders with the name field omitted. -/
theorem c7_user_name_witness :
    formatMemoryItems cfgW (qMem [MemoryItem.utterance uUser]) =
      .ok [instructionsMessage cfgW (qMem [MemoryItem.utterance uUser]),
        { role := "user", content := some uUser.contents, name := uUser.name,
          tool_calls := none, tool_call_id := none }] :=
  c7_user_turn_name_amended cfgW _ uUser rfl rfl

/-- Rendering a grouped turn depends only on its role-erased form: the
stored source-domain roles are never read by the message synthesizer. -/
theorem renderGroup_congr (g1 g2 : GroupedTurn Role) (h : eraseG g1 = eraseG g2) :
    renderGroup g1 = renderGroup g2 := by
  cases g1 with
  | user u1 =>
    cases g2 with
    | user u2 =>
      simp only [eraseG, GroupedTurn.user.injEq, eraseU, Utt.mk.injEq, true_and] at h
      simp [renderGroup, h.1, h.2]
    | assistant utt2 tcs2 => simp [eraseG] at h
    | toolCallResultGroup rs2 => simp [eraseG] at h
  | assistant utt1 tcs1 =>
    cases g2 with
    | user u2 => simp [eraseG] at h
    | toolCallResultGroup rs2 => simp [eraseG] at h
    | assistant utt2 tcs2 =>
      simp only [eraseG, GroupedTurn.assistant.injEq] at h
      obtain ⟨hutt, htcs⟩ := h
      subst htcs
      cases utt1 with
      | none =>
        cases utt2 with
        | none => rfl
        | some u2 => simp at hutt
      | some u1 =>
        cases utt2 with
        | none => simp at hutt
        | some u2 =>
          simp only [Option.map_some', Option.some.injEq, eraseU, Utt.mk.injEq,
            true_and] at hutt
          simp [renderGroup, hutt.2]
  | toolCallResultGroup rs1 =>
    cases g2 with
    | user u2 => simp [eraseG] at h
    | assistant utt2 tcs2 => simp [eraseG] at h
    | toolCallResultGroup rs2 =>
      simp only [eraseG, GroupedTurn.toolCallResultGroup.injEq] at h
      subst h
      rfl

/-- Rendering a turn list depends only on its role-erased form. -/
theorem renderAll_congr (gs1 gs2 : List (GroupedTurn Role))
    (h : gs1.map eraseG = gs2.map eraseG) : renderAll gs1 = renderAll gs2 := by
  induction gs1 generalizing gs2 with
  | nil =>
    cases gs2 with
    | nil => rfl
    | cons g gs => simp at h
  | cons g1 rest1 ih =>
    cases gs2 with
    | nil => simp at h
    | cons g2 rest2 =>
      simp only [List.map_cons, List.cons.injEq] at h
      simp only [renderAll, List.map_cons, List.flatten_cons]
      rw [renderGroup_congr g1 g2 h.1]
      have htail := ih rest2 h.2
      simp only [renderAll] at htail
      rw [htail]

/-- One regrouping step depends on the accumulated state only through its
role-erased form: states equal after erasure step to results equal after
erasure (same thrown message, or erase-equal states). -/
theorem regroupStep_erase (rm : RoleMapper Role) (st1 st2 : RegroupState Role)
    (i : MemoryItem Role) (h : eraseSt st1 = eraseSt st2) :
    (regroupStep rm st1 i).map eraseSt = (regroupStep rm st2 i).map eraseSt := by
  obtain ⟨out1, og1⟩ := st1
  obtain ⟨out2, og2⟩ := st2
  simp only [eraseSt, Prod.mk.injEq] at h
  obtain ⟨hout, hog⟩ := h
  cases og1 with
  | none =>
    cases og2 with
    | some g2 => simp at hog
    | none =>
      cases i with
      | utterance u =>
        cases hop : openUtteranceGroup rm u with
        | error e => simp [regroupStep, hop]
        | ok ng => simp [regroupStep, hop, Except.map, eraseSt, hout]
      | toolCall c => simp [regroupStep, Except.map, eraseSt, hout]
      | toolCallResult r => simp [regroupStep, Except.map]
  | some g1 =>
    cases og2 with
    | none => simp at hog
    | some g2 =>
      simp only [Option.map_some', Option.some.injEq] at hog
      cases i with
      | utterance u =>
        cases g1 with
        | assistant utt1 tcs1 =>
          cases g2 with
          | assistant utt2 tcs2 =>
            simp only [eraseG, GroupedTurn.assistant.injEq] at hog
            obtain ⟨hutt, htcs⟩ := hog
            subst htcs
            cases utt1 with
            | none =>
              cases utt2 with
              | none => simp [regroupStep, Except.map, eraseSt, hout]
              | some u2 => simp at hutt
            | some u1 =>
              cases utt2 with
              | none => simp at hutt
              | some u2 =>
                simp only [Option.map_some', Option.some.injEq] at hutt
                cases hop : openUtteranceGroup rm u with
                | error e => simp [regroupStep, hop]
                | ok ng =>
                  simp [regroupStep, hop, Except.map, eraseSt, List.map_append, hout,
                    eraseG, hutt]
          | user u2 => simp [eraseG] at hog
          | toolCallResultGroup rs2 => simp [eraseG] at hog
        | user u1 =>
          cases g2 with
          | user u2 =>
            cases hop : openUtteranceGroup rm u with
            | error e => simp [regroupStep, hop]
            | ok ng =>
              simp [regroupStep, hop, Except.map, eraseSt, List.map_append, hout, hog]
          | assistant utt2 tcs2 => simp [eraseG] at hog
          | toolCallResultGroup rs2 => simp [eraseG] at hog
        | toolCallResultGroup rs1 =>
          cases g2 with
          | toolCallResultGroup rs2 =>
            cases hop : openUtteranceGroup rm u with
            | error e => simp [regroupStep, hop]
            | ok ng =>
              simp [regroupStep, hop, Except.map, eraseSt, List.map_append, hout, hog]
          | user u2 => simp [eraseG] at hog
          | assistant utt2 tcs2 => simp [eraseG] at hog
      | toolCall c =>
        cases g1 with
        | assistant utt1 tcs1 =>
          cases g2 with
          | assistant utt2 tcs2 =>
            simp only [eraseG, GroupedTurn.assistant.injEq] at hog
            obtain ⟨hutt, htcs⟩ := hog
            subst htcs
            simp [regroupStep, Except.map, eraseSt, hout, eraseG, hutt]
          | user u2 => simp [eraseG] at hog
          | toolCallResultGroup rs2 => simp [eraseG] at hog
        | user u1 =>
          cases g2 with
          | user u2 =>
            simp [regroupStep, Except.map, eraseSt, List.map_append, hout, hog]
          | assistant utt2 tcs2 => simp [eraseG] at hog
          | toolCallResultGroup rs2 => simp [eraseG] at hog
        | toolCallResultGroup rs1 =>
          cases g2 with
          | toolCallResultGroup rs2 =>
            simp [regroupStep, Except.map, eraseSt, List.map_append, hout, hog]
          | user u2 => simp [eraseG] at hog
          | assistant utt2 tcs2 => simp [eraseG] at hog
      | toolCallResult r =>
        cases g1 with
        | toolCallResultGroup rs1 =>
          cases g2 with
          | toolCallResultGroup rs2 =>
            simp only [eraseG, GroupedTurn.toolCallResultGroup.injEq] at hog
            subst hog
            simp [regroupStep, Except.map, eraseSt, hout]
          | user u2 => simp [eraseG] at hog
          | assistant utt2 tcs2 => simp [eraseG] at hog
        | user u1 =>
          cases g2 with
          | user u2 =>
            simp [regroupStep, Except.map, eraseSt, List.map_append, hout, hog]
          | assistant utt2 tcs2 => simp [eraseG] at hog
          | toolCallResultGroup rs2 => simp [eraseG] at hog
        | assistant utt1 tcs1 =>
          cases g2 with
          | assistant utt2 tcs2 =>
            simp [regroupStep, Except.map, eraseSt, List.map_append, hout, hog]
          | user u2 => simp [eraseG] at hog
          | toolCallResultGroup rs2 => simp [eraseG] at hog

/-- The whole regrouping fold depends on the starting state only through
its role-erased form. -/
theorem regroupFold_erase (rm : RoleMapper Role) (l : List (MemoryItem Role)) :
    ∀ st1 st2, eraseSt st1 = eraseSt st2 →
      (regroupFold rm st1 l).map eraseSt = (regroupFold rm st2 l).map eraseSt := by
  induction l with
  | nil => intro st1 st2 h; simp [regroupFold, Except.map, h]
  | cons i rest ih =>
    intro st1 st2 h
    have hs := regroupStep_erase rm st1 st2 i h
    simp only [regroupFold]
    cases h1 : regroupStep rm st1 i with
    | error e =>
      rw [h1] at hs
      cases h2 : regroupStep rm st2 i with
      | error e2 =>
        rw [h2] at hs
        simp only [Except.map, Except.error.injEq] at hs
        subst hs
        rfl
      | ok s2 =>
        rw [h2] at hs
        simp [Except.map] at hs
    | ok s1 =>
      rw [h1] at hs
      cases h2 : regroupStep rm st2 i with
      | error e2 =>
        rw [h2] at hs
        simp [Except.map] at hs
      | ok s2 =>
        rw [h2] at hs
        simp only [Except.map, Except.ok.injEq] at hs
        exact ih s1 s2 hs

/-- Flushing the final state respects erasure. -/
theorem flushState_erase (st1 st2 : RegroupState Role) (h : eraseSt st1 = eraseSt st2) :
    (flushState st1).map eraseG = (flushState st2).map eraseG := by
  obtain ⟨out1, og1⟩ := st1
  obtain ⟨out2, og2⟩ := st2
  simp only [eraseSt, Prod.mk.injEq] at h
  obtain ⟨hout, hog⟩ := h
  cases og1 with
  | none =>
    cases og2 with
    | none => simpa [flushState] using hout
    | some g2 => simp at hog
  | some g1 =>
    cases og2 with
    | none => simp at hog
    | some g2 =>
      simp only [Option.map_some', Option.some.injEq] at hog
      simp [flushState, List.map_append, hout, hog]

/-- If the regrouping folds of two memories are equal after erasure, the
formatted message lists agree after the leading instructions message, and
agree entirely whenever the instructions formatter does not distinguish
the two queries. -/
theorem formatMemoryItems_tail_congr {Role σ π : Type} (cfg : FormatterConfig Role σ π)
    (q1 q2 : Query Role σ π) (m1 m2 : List (MemoryItem Role))
    (hm1 : q1.memory = some m1) (hm2 : q2.memory = some m2)
    (h : (regroupFold cfg.roleMapper ([], none) m1).map eraseSt =
         (regroupFold cfg.roleMapper ([], none) m2).map eraseSt) :
    (formatMemoryItems cfg q1).map List.tail =
      (formatMemoryItems cfg q2).map List.tail ∧
    (cfg.instructionsFormatter q1 = cfg.instructionsFormatter q2 →
      formatMemoryItems cfg q1 = formatMemoryItems cfg q2) := by
  cases h1 : regroupFold cfg.roleMapper ([], none) m1 with
  | error e =>
    rw [h1] at h
    cases h2 : regroupFold cfg.roleMapper ([], none) m2 with
    | error e2 =>
      rw [h2] at h
      simp only [Except.map, Except.error.injEq] at h
      subst h
      have he1 := formatMemoryItems_eq_error cfg q1 e
        (by rw [hm1, Option.getD_some]
            exact regroup_eq_error_of_fold cfg.roleMapper _ _ h1)
      have he2 := formatMemoryItems_eq_error cfg q2 e
        (by rw [hm2, Option.getD_some]
            exact regroup_eq_error_of_fold cfg.roleMapper _ _ h2)
      rw [he1, he2]
      exact ⟨rfl, fun _ => rfl⟩
    | ok s2 =>
      rw [h2] at h
      simp [Except.map] at h
  | ok s1 =>
    rw [h1] at h
    cases h2 : regroupFold cfg.roleMapper ([], none) m2 with
    | error e2 =>
      rw [h2] at h
      simp [Except.map] at h
    | ok s2 =>
      rw [h2] at h
      simp only [Except.map, Except.ok.injEq] at h
      have hr1 := formatMemoryItems_eq_ok cfg q1 _
        (by rw [hm1, Option.getD_some]
            exact regroup_eq_of_fold cfg.roleMapper _ _ h1)
      have hr2 := formatMemoryItems_eq_ok cfg q2 _
        (by rw [hm2, Option.getD_some]
            exact regroup_eq_of_fold cfg.roleMapper _ _ h2)
      have htails : renderAll (flushState s1) = renderAll (flushState s2) :=
        renderAll_congr _ _ (flushState_erase s1 s2 h)
      simp only [renderAll] at htails
      rw [hr1, hr2]
      constructor
      · simp only [Except.map, List.tail_cons, htails]
      · intro hinstr
        simp only [instructionsMessage, hinstr, htails]

/-- C10 counterexample: two `format` runs on memories differing only in the
absorbed utterance's source role are NOT identical under a configuration
whose instructions formatter inspects the query's memory — the source hands
the whole query to `this.instructionsFormatter`, so the absorbed role can
reach the output through the leading instructions message (here the two
runs differ in messages[0].content: `roleA` versus `roleB`). -/
theorem c10_claim_counterexample :
    ∃ r1 r2 : FormatResult Unit Unit,
      format cfgSniff z2jsU zrfU
          (qMem [MemoryItem.toolCall tcA, MemoryItem.utterance uRoleA]) = .ok r1 ∧
      format cfgSniff z2jsU zrfU
          (qMem [MemoryItem.toolCall tcA, MemoryItem.utterance uRoleB]) = .ok r2 ∧
      r1.messages ≠ r2.messages :=
  ⟨_, _, rfl, rfl, by decide⟩

/-- Two memory sequences differing only in the role of an utterance that is
absorbed by an open assistant tool-call group regroup to erase-equal
results. -/
theorem absorbed_fold_erase (rm : RoleMapper Role) (p : List (MemoryItem Role))
    (n : Option String) (c : String) (r1 r2 : Role) (s : List (MemoryItem Role))
    (out : List (GroupedTurn Role)) (tcs : List ToolCallItem)
    (hfold : regroupFold rm ([], none) p = .ok (out, some (.assistant none tcs))) :
    (regroupFold rm ([], none) (p ++ MemoryItem.utterance ⟨r1, n, c⟩ :: s)).map eraseSt =
      (regroupFold rm ([], none) (p ++ MemoryItem.utterance ⟨r2, n, c⟩ :: s)).map eraseSt := by
  have hst1 : regroupFold rm ([], none)
      (p ++ MemoryItem.utterance { role := r1, name := n, contents := c } :: s) =
      regroupFold rm
        (out, some (.assistant (some { role := r1, name := n, contents := c }) tcs)) s :=
    (regroupFold_append_ok rm p _ ([], none) _ hfold).trans rfl
  have hst2 : regroupFold rm ([], none)
      (p ++ MemoryItem.utterance { role := r2, name := n, contents := c } :: s) =
      regroupFold rm
        (out, some (.assistant (some { role := r2, name := n, contents := c }) tcs)) s :=
    (regroupFold_append_ok rm p _ ([], none) _ hfold).trans rfl
  rw [hst1, hst2]
  exact regroupFold_erase rm s _ _ (by simp [eraseSt, eraseG, eraseU])

/-- C10 (amended): an utterance arriving while the current group is an
assistant turn with only tool calls is absorbed into that turn without
consulting the role mapper (the step is the same for every mapper), and two
`format` runs on memories differing only in that utterance's source role
field produce message lists that agree after the leading instructions
message — and fully identical message lists whenever the configured
instructions formatter (which receives the whole query) yields the same
string on both queries. -/
theorem c10_absorbed_role_amended {Role σ π : Type} :
    (∀ (rm : RoleMapper Role) (out : List (GroupedTurn Role))
       (tcs : List ToolCallItem) (u : Utt Role),
      regroupStep rm (out, some (.assistant none tcs)) (.utterance u) =
        .ok (out, some (.assistant (some u) tcs))) ∧
    (∀ (cfg : FormatterConfig Role σ π) (q : Query Role σ π)
       (p : List (MemoryItem Role)) (n : Option String) (c : String) (r1 r2 : Role)
       (s : List (MemoryItem Role)) (out : List (GroupedTurn Role))
       (tcs : List ToolCallItem),
      regroupFold cfg.roleMapper ([], none) p = .ok (out, some (.assistant none tcs)) →
      (formatMemoryItems cfg
          { q with memory := some (p ++ MemoryItem.utterance ⟨r1, n, c⟩ :: s) }).map List.tail =
        (formatMemoryItems cfg
          { q with memory := some (p ++ MemoryItem.utterance ⟨r2, n, c⟩ :: s) }).map List.tail) ∧
    (∀ (cfg : FormatterConfig Role σ π) (q : Query Role σ π)
       (p : List (MemoryItem Role)) (n : Option String) (c : String) (r1 r2 : Role)
       (s : List (MemoryItem Role)) (out : List (GroupedTurn Role))
       (tcs : List ToolCallItem),
      regroupFold cfg.roleMapper ([], none) p = .ok (out, some (.assistant none tcs)) →
      cfg.instructionsFormatter
          { q with memory := some (p ++ MemoryItem.utterance ⟨r1, n, c⟩ :: s) } =
        cfg.instructionsFormatter
          { q with memory := some (p ++ MemoryItem.utterance ⟨r2, n, c⟩ :: s) } →
      formatMemoryItems cfg
          { q with memory := some (p ++ MemoryItem.utterance ⟨r1, n, c⟩ :: s) } =
        formatMemoryItems cfg
          { q with memory := some (p ++ MemoryItem.utterance ⟨r2, n, c⟩ :: s) }) := by
  refine ⟨fun rm out tcs u => rfl, ?_, ?_⟩
  · intro cfg q p n c r1 r2 s out tcs hfold
    exact (formatMemoryItems_tail_congr cfg _ _ _ _ rfl rfl
      (absorbed_fold_erase cfg.roleMapper p n c r1 r2 s out tcs hfold)).1
  · intro cfg q p n c r1 r2 s out tcs hfold hinstr
    exact (formatMemoryItems_tail_congr cfg _ _ _ _ rfl rfl
      (absorbed_fold_erase cfg.roleMapper p n c r1 r2 s out tcs hfold)).2 hinstr

/-- Witness for the amended C10: the absorbing step ignores the mapper, and
two runs differing only in the absorbed role have identical message tails
even under the memory-inspecting configuration. -/
theorem c10_absorbed_witness :
    (regroupStep identityRoleMapper ([], some (GroupedTurn.assistant none [tcA]))
        (MemoryItem.utterance uRoleA) =
      .ok ([], some (GroupedTurn.assistant (some uRoleA) [tcA]))) ∧
    ((formatMemoryItems cfgSniff
        { qMem [] with memory := some ([MemoryItem.toolCall tcA] ++ MemoryItem.utterance ⟨ "roleA", none, "here"⟩ :: []) }).map List.tail =
      (formatMemoryItems cfgSniff
        { qMem [] with memory := some ([MemoryItem.toolCall tcA] ++ MemoryItem.utterance ⟨ "roleB", none, "here"⟩ :: []) }).map List.tail) ∧
    (formatMemoryItems cfgW
        { qMem [] with memory := some ([MemoryItem.toolCall tcA] ++ MemoryItem.utterance ⟨ "roleA", none, "here"⟩ :: []) } =
      formatMemoryItems cfgW
        { qMem [] with memory := some ([MemoryItem.toolCall tcA] ++ MemoryItem.utterance ⟨ "roleB", none, "here"⟩ :: []) }) :=
  ⟨(@c10_absorbed_role_amended String Unit Unit).1 identityRoleMapper [] [tcA] uRoleA,
   (@c10_absorbed_role_amended String Unit Unit).2.1 cfgSniff (qMem [])
     [MemoryItem.toolCall tcA] none "here" "roleA" "roleB" [] [] [tcA] rfl,
   (@c10_absorbed_role_amended String Unit Unit).2.2 cfgW (qMem [])
     [MemoryItem.toolCall tcA] none "here" "roleA" "roleB" [] [] [tcA] rfl rfl⟩
